import Mathlib

/-!
Shallow embedding of the L3 abstract machine from
`src/aima-native/src/c/l3machine.c` (the consolidated interpreter variant),
together with the decode-loop skeleton of the L2 JIT `codeAdded` hook from
`src/aima-native/linux-llvm/src/c/l2jitmachine.cpp`.

Cells are 32-bit words stored as `Nat` values below `2 ^ 32`; the data area is
modelled as a total function `Int → Nat` (the C array indexed by `jint`).
Signed C quantities (`jbyte` operands, `jint` cell reads) are recovered with
explicit sign decoding.  Loops are given explicit fuel; `none` means the fuel
ran out, never a result of the machine itself.
-/

namespace L3

set_option maxRecDepth 40000

/-- The value of a byte reinterpreted as a signed `jbyte`, as in the C casts
`(jbyte)(x)`. -/
def jbyteOf (b : Nat) : Int :=
  if b % 256 < 128 then ((b % 256 : Nat) : Int) else ((b % 256 : Nat) : Int) - 256

/-- A 32-bit cell reinterpreted as a signed `jint`. -/
def int32 (c : Nat) : Int :=
  if c % 2 ^ 32 < 2 ^ 31 then ((c % 2 ^ 32 : Nat) : Int) else ((c % 2 ^ 32 : Nat) : Int) - 2 ^ 32

/-- A signed value stored into a 32-bit cell (two's-complement truncation). -/
def w32 (x : Int) : Nat := (x % (2 ^ 32 : Int)).toNat

/-- The low 24 bits of a signed value, as in the C mask `x & 0xFFFFFF`. -/
def low24 (x : Int) : Nat := (x % (2 ^ 24 : Int)).toNat

/-- Builds a tagged cell, as in the C expression `(tag << 24) | (x & 0xFFFFFF)`. -/
def mkCell (tag : Nat) (x : Int) : Nat := tag % 256 * 2 ^ 24 + low24 x

/-- The tag byte of a cell: `(cell & 0xFF000000) >> 24`. -/
def cellTag (c : Nat) : Nat := c / 2 ^ 24 % 256

/-- The 24-bit payload of a cell: `cell & 0x00FFFFFF`. -/
def cellVal (c : Nat) : Nat := c % 2 ^ 24

/-- Pointwise update of the data area. -/
def upd (f : Int → Nat) (a : Int) (v : Nat) : Int → Nat :=
  fun x => if x = a then v else f x

/-- Register file size (`REG_SIZE`). -/
def REG_SIZE : Int := 10

/-- Heap size (`HEAP_SIZE`). -/
def HEAP_SIZE : Int := 10000

/-- Environment stack size (`STACK_SIZE`). -/
def STACK_SIZE : Int := 10000

/-- PDL size (`PDL_SIZE`). -/
def PDL_SIZE : Int := 1000

/-- Highest address of the data area (`TOP`). -/
def TOP : Int := REG_SIZE + HEAP_SIZE + STACK_SIZE + PDL_SIZE

/-- The machine state: the `l3MachineState` struct fields together with the
locals of `execute` (`hp`, `sp`, `writeMode`, `ip`, `cp`, `ep`, `esp`), which
the C code copies out of and back into the struct around the decode loop. -/
structure St where
  data : Int → Nat
  hp : Int
  sp : Int
  up : Int
  ep : Int
  esp : Int
  ip : Int
  cp : Int
  writeMode : Bool
  derefTag : Int
  derefVal : Int

/-- `l3deref`, as a pure function of the data area: follows the `REF` chain
from `a`, returning the final address with the tag and value that the C code
leaves in `derefTag` / `derefVal`.  One unit of fuel is spent per chain step;
`none` means the fuel ran out.  The C loop re-reads the cell it moves to and
breaks when that cell's payload equals its own address, which is reproduced
here by the self-reference test before recursing. -/
def l3derefFuel (data : Int → Nat) : Nat → Int → Option (Int × Int × Int)
  | fuel, a =>
    let c := data a
    let t := jbyteOf (cellTag c)
    let v : Int := ((cellVal c : Nat) : Int)
    if t = 1 then
      if v = a then some (a, t, v)
      else
        match fuel with
        | 0 => none
        | fuel + 1 => l3derefFuel data fuel v
    else some (a, t, v)

/-- `l3deref` acting on the machine state: returns the final address and
publishes tag and value into the last-deref pseudo-registers. -/
def l3derefS (dfuel : Nat) (s : St) (a : Int) : Option (Int × St) :=
  (l3derefFuel s.data dfuel a).map fun r => (r.1, { s with derefTag := r.2.1, derefVal := r.2.2 })

/-- Inspection accessor `getDerefTag`. -/
def getDerefTag (s : St) : Int := s.derefTag

/-- Inspection accessor `getDerefVal`. -/
def getDerefVal (s : St) : Int := s.derefVal

/-- Inspection accessor `getHeap`. -/
def getHeap (s : St) (addr : Int) : Nat := s.data addr

/-- `derefStack`: dereference of slot `a` of the current environment frame,
which the C code computes as `l3deref(a + l3state->ep + 3)`. -/
def derefStackS (dfuel : Nat) (s : St) (a : Int) : Option (Int × St) :=
  l3derefS dfuel s (a + s.ep + 3)

/-- Specification-side description of the dereference walk (spec §4.1): from
address `a`, stop as soon as the cell at the current address is not `REF` or
is a self-reference (a free variable); otherwise step to the payload.  Returns
the final address, `none` if the fuel runs out before a terminal cell. -/
def chainEnd (data : Int → Nat) : Nat → Int → Option Int
  | fuel, a =>
    if cellTag (data a) ≠ 1 ∨ ((cellVal (data a) : Nat) : Int) = a then some a
    else
      match fuel with
      | 0 => none
      | fuel + 1 => chainEnd data fuel ((cellVal (data a) : Nat) : Int)

theorem jbyteOf_eq_one (b : Nat) : jbyteOf b = 1 ↔ b % 256 = 1 := by
  unfold jbyteOf
  split
  · omega
  · omega

theorem cellTag_lt (c : Nat) : cellTag c < 256 := by
  unfold cellTag
  omega

/-- Core agreement between the C dereference loop and the specification's
chain walk: whenever the chain from `a` reaches its terminal cell `e` within
the fuel, `l3deref` returns `e` and reports the tag byte and 24-bit payload
of the cell at `e`. -/
theorem l3derefFuel_eq_chainEnd (data : Int → Nat) :
    ∀ (fuel : Nat) (a e : Int), chainEnd data fuel a = some e →
      l3derefFuel data fuel a =
        some (e, jbyteOf (cellTag (data e)), ((cellVal (data e) : Nat) : Int)) := by
  intro fuel
  induction fuel with
  | zero =>
    intro a e h
    rw [chainEnd] at h
    rw [l3derefFuel]
    by_cases ht : cellTag (data a) = 1
    · by_cases hv : ((cellVal (data a) : Nat) : Int) = a
      · rw [if_pos (Or.inr hv)] at h
        cases h
        have ht1 : jbyteOf (cellTag (data a)) = 1 := by
          rw [jbyteOf_eq_one]
          have := cellTag_lt (data a)
          omega
        simp [ht1, hv]
      · rw [if_neg (by push_neg; exact ⟨ht, hv⟩)] at h
        cases h
    · rw [if_pos (Or.inl ht)] at h
      cases h
      have ht1 : ¬ jbyteOf (cellTag (data a)) = 1 := by
        rw [jbyteOf_eq_one]
        have := cellTag_lt (data a)
        omega
      simp only [if_neg ht1]
  | succ f ih =>
    intro a e h
    rw [chainEnd] at h
    rw [l3derefFuel]
    by_cases ht : cellTag (data a) = 1
    · by_cases hv : ((cellVal (data a) : Nat) : Int) = a
      · rw [if_pos (Or.inr hv)] at h
        cases h
        have ht1 : jbyteOf (cellTag (data a)) = 1 := by
          rw [jbyteOf_eq_one]
          have := cellTag_lt (data a)
          omega
        simp [ht1, hv]
      · rw [if_neg (by push_neg; exact ⟨ht, hv⟩)] at h
        have ht1 : jbyteOf (cellTag (data a)) = 1 := by
          rw [jbyteOf_eq_one]
          have := cellTag_lt (data a)
          omega
        simp only [ht1, if_pos rfl, if_neg hv]
        exact ih _ _ h
    · rw [if_pos (Or.inl ht)] at h
      cases h
      have ht1 : ¬ jbyteOf (cellTag (data a)) = 1 := by
        rw [jbyteOf_eq_one]
        have := cellTag_lt (data a)
        omega
      simp only [if_neg ht1]

/-- `l3uPush`: pushes a value onto the PDL (`data[--up] = val`). -/
def l3uPush (s : St) (val : Int) : St :=
  { s with up := s.up - 1, data := upd s.data (s.up - 1) (w32 val) }

/-- `l3uPop`: pops a value from the PDL (`return data[up++]`), read back as a
signed `jint`. -/
def l3uPop (s : St) : Int × St :=
  (int32 (s.data s.up), { s with up := s.up + 1 })

/-- `l3uClear`: empties the PDL (`up = TOP`). -/
def l3uClear (s : St) : St := { s with up := TOP }

/-- The `for (i = 1; i <= n1; i++) { push(v1 + i); push(v2 + i) }` loop of
`l3unify`, pushing `n` argument-address pairs in ascending order of `i`. -/
def pushPairs (s : St) (v1 v2 : Int) : Nat → St
  | 0 => s
  | n + 1 =>
    let s1 := pushPairs s v1 v2 n
    l3uPush (l3uPush s1 (v1 + (n + 1))) (v2 + (n + 1))

/-- The `while (!empty(PDL) and not failed)` loop of `l3unify`.  Returns the
success flag (`fail == JNI_TRUE ? JNI_FALSE : JNI_TRUE`) and the final state;
`none` when either fuel runs out.  The arity `n1` is read as the C does:
`(jbyte)(f_n1 & 0xFF)`, a signed byte. -/
def l3unifyLoop (dfuel : Nat) : Nat → St → Option (Bool × St)
  | 0, _ => none
  | fuel + 1, s =>
    if TOP ≤ s.up then some (true, s)
    else
      let p1 := l3uPop s
      match l3derefS dfuel p1.2 p1.1 with
      | none => none
      | some r1 =>
        let d1 := r1.1
        let t1 := r1.2.derefTag
        let v1 := r1.2.derefVal
        let p2 := l3uPop r1.2
        match l3derefS dfuel p2.2 p2.1 with
        | none => none
        | some r2 =>
          let d2 := r2.1
          let s2 := r2.2
          let t2 := s2.derefTag
          let v2 := s2.derefVal
          if d1 = d2 then l3unifyLoop dfuel fuel s2
          else if t1 = 1 then
            l3unifyLoop dfuel fuel { s2 with data := upd s2.data d1 (mkCell 1 d2) }
          else if t2 = 1 then
            l3unifyLoop dfuel fuel { s2 with data := upd s2.data d2 (mkCell 1 d1) }
          else
            let f_n1 := s2.data v1
            let f_n2 := s2.data v2
            let n1 := jbyteOf (f_n1 % 256)
            if f_n1 = f_n2 then l3unifyLoop dfuel fuel (pushPairs s2 v1 v2 n1.toNat)
            else some (false, s2)

/-- `l3unify(a1, a2)`: pushes both addresses onto the PDL and runs the loop. -/
def l3unify (dfuel ufuel : Nat) (s : St) (a1 a2 : Int) : Option (Bool × St) :=
  l3unifyLoop dfuel ufuel (l3uPush (l3uPush s a1) a2)

/-- Specification-side unification loop, transcribed from spec §4.1 steps 1-4:
pop two addresses, dereference to `d1`, `d2`; skip equal pairs; bind when
either endpoint is `REF` (first endpoint preferred, as §4.1's bind states);
otherwise compare the full 32-bit functor/arity words and on a match push the
argument pairs `(v1+i, v2+i)` for `i = 1..n1`.  The spec does not fix how the
arity `n1` is decoded from the functor word, so the reading is a parameter
`nOf`. -/
def unifySpecLoop (nOf : Nat → Int) (dfuel : Nat) : Nat → St → Option (Bool × St)
  | 0, _ => none
  | fuel + 1, s =>
    if TOP ≤ s.up then some (true, s)
    else
      let p1 := l3uPop s
      match l3derefS dfuel p1.2 p1.1 with
      | none => none
      | some r1 =>
        let d1 := r1.1
        let t1 := r1.2.derefTag
        let v1 := r1.2.derefVal
        let p2 := l3uPop r1.2
        match l3derefS dfuel p2.2 p2.1 with
        | none => none
        | some r2 =>
          let d2 := r2.1
          let s2 := r2.2
          let t2 := s2.derefTag
          let v2 := s2.derefVal
          if d1 = d2 then unifySpecLoop nOf dfuel fuel s2
          else if t1 = 1 then
            unifySpecLoop nOf dfuel fuel { s2 with data := upd s2.data d1 (mkCell 1 d2) }
          else if t2 = 1 then
            unifySpecLoop nOf dfuel fuel { s2 with data := upd s2.data d2 (mkCell 1 d1) }
          else
            let f_n1 := s2.data v1
            let f_n2 := s2.data v2
            let n1 := nOf f_n1
            if f_n1 = f_n2 then unifySpecLoop nOf dfuel fuel (pushPairs s2 v1 v2 n1.toNat)
            else some (false, s2)

/-- Byte `i` of the code buffer (0 outside the buffer; reads in range are
always in 0..255). -/
def byteAt (code : List Nat) (i : Int) : Nat :=
  if 0 ≤ i then code.getD i.toNat 0 % 256 else 0

/-- A 4-byte little-endian (host-endian on x86) immediate starting at `i`,
as the unsigned 32-bit word `*(jint*)(code + i)` stores into a cell. -/
def readWord (code : List Nat) (i : Int) : Nat :=
  byteAt code i + 256 * byteAt code (i + 1) + 65536 * byteAt code (i + 2) +
    16777216 * byteAt code (i + 3)

/-- The operand address `xi`: a signed byte plus `ep + 3` in stack mode
(`(jint)code[ip + 2] + ((mode == STACK_ADDR) ? (ep + 3) : 0)`). -/
def xiAddr (code : List Nat) (s : St) : Int :=
  jbyteOf (byteAt code (s.ip + 2)) + (if byteAt code (s.ip + 1) = 2 then s.ep + 3 else 0)

/-- The `ALLOCATE n` state transition: writes the three-word frame header
(`prev ep`, `cp`, `n`) at `esp`, moves `ep` to the old `esp`, advances `esp`
by `n + 3` and `ip` by 2. -/
def allocStep (n : Int) (s : St) : St :=
  { s with
    data := upd (upd (upd s.data s.esp (w32 s.ep)) (s.esp + 1) (w32 s.cp)) (s.esp + 2) (w32 n)
    ep := s.esp
    esp := s.esp + n + 3
    ip := s.ip + 2 }

/-- The `DEALLOCATE` state transition exactly as the C code performs it:
`esp = ep; ep = data[ep]; ip = data[ep + 1]` — note that the last read uses
the freshly restored `ep`, so the continuation comes from the parent frame's
header, and `cp` is not touched. -/
def deallocStep (s : St) : St :=
  { s with
    esp := s.ep
    ep := int32 (s.data s.ep)
    ip := int32 (s.data (int32 (s.data s.ep) + 1)) }

/-- The decode loop of `execute`, one fuel unit per iteration of
`while (failed == JNI_FALSE && (ip < length))`.  Each opcode case is the
corresponding `case` of the C switch; the final `some (false, s)` arm is the
`default` case (unknown opcode), which sets `failed` and leaves the loop. -/
def execLoop (code : List Nat) (len : Int) (dfuel ufuel : Nat) : Nat → St → Option (Bool × St)
  | 0, _ => none
  | fuel + 1, s =>
    if s.ip < len then
      if byteAt code s.ip = 1 then
        -- PUT_STRUC xi, f/n
        let xi := xiAddr code s
        let f_n := readWord code (s.ip + 3)
        let d1 := upd s.data s.hp (mkCell 2 (s.hp + 1))
        let d2 := upd d1 (s.hp + 1) f_n
        let d3 := upd d2 xi (d2 s.hp)
        execLoop code len dfuel ufuel fuel { s with data := d3, hp := s.hp + 2, ip := s.ip + 7 }
      else if byteAt code s.ip = 2 then
        -- SET_VAR xi
        let xi := xiAddr code s
        let d1 := upd s.data s.hp (mkCell 1 s.hp)
        let d2 := upd d1 xi (d1 s.hp)
        execLoop code len dfuel ufuel fuel { s with data := d2, hp := s.hp + 1, ip := s.ip + 3 }
      else if byteAt code s.ip = 3 then
        -- SET_VAL xi
        let xi := xiAddr code s
        let d1 := upd s.data s.hp (s.data xi)
        execLoop code len dfuel ufuel fuel { s with data := d1, hp := s.hp + 1, ip := s.ip + 3 }
      else if byteAt code s.ip = 4 then
        -- GET_STRUC xi, f/n
        let xi := xiAddr code s
        let f_n := readWord code (s.ip + 3)
        match l3derefS dfuel s xi with
        | none => none
        | some r =>
          let addr := r.1
          let s1 := r.2
          if s1.derefTag = 1 then
            let d1 := upd s1.data s1.hp (mkCell 2 (s1.hp + 1))
            let d2 := upd d1 (s1.hp + 1) f_n
            let d3 := upd d2 addr (mkCell 1 s1.hp)
            execLoop code len dfuel ufuel fuel
              { s1 with data := d3, hp := s1.hp + 2, writeMode := true, ip := s1.ip + 7 }
          else if s1.derefTag = 2 then
            if s1.data s1.derefVal = f_n then
              execLoop code len dfuel ufuel fuel
                { s1 with sp := s1.derefVal + 1, writeMode := false, ip := s1.ip + 7 }
            else some (false, { s1 with ip := s1.ip + 7 })
          else execLoop code len dfuel ufuel fuel { s1 with ip := s1.ip + 7 }
      else if byteAt code s.ip = 5 then
        -- UNIFY_VAR xi
        let xi := xiAddr code s
        if s.writeMode = false then
          let d1 := upd s.data xi (s.data s.sp)
          execLoop code len dfuel ufuel fuel { s with data := d1, sp := s.sp + 1, ip := s.ip + 3 }
        else
          let d1 := upd s.data s.hp (mkCell 1 s.hp)
          let d2 := upd d1 xi (d1 s.hp)
          execLoop code len dfuel ufuel fuel
            { s with data := d2, hp := s.hp + 1, sp := s.sp + 1, ip := s.ip + 3 }
      else if byteAt code s.ip = 6 then
        -- UNIFY_VAL xi
        let xi := xiAddr code s
        if s.writeMode = false then
          match l3unify dfuel ufuel s xi s.sp with
          | none => none
          | some r =>
            let s1 := { r.2 with sp := r.2.sp + 1, ip := r.2.ip + 3 }
            if r.1 then execLoop code len dfuel ufuel fuel s1 else some (false, s1)
        else
          let d1 := upd s.data s.hp (s.data xi)
          execLoop code len dfuel ufuel fuel
            { s with data := d1, hp := s.hp + 1, sp := s.sp + 1, ip := s.ip + 3 }
      else if byteAt code s.ip = 7 then
        -- PUT_VAR xi, ai
        let xi := xiAddr code s
        let ai := jbyteOf (byteAt code (s.ip + 3))
        let d1 := upd s.data s.hp (mkCell 1 s.hp)
        let d2 := upd d1 xi (d1 s.hp)
        let d3 := upd d2 ai (d2 s.hp)
        execLoop code len dfuel ufuel fuel { s with data := d3, hp := s.hp + 1, ip := s.ip + 4 }
      else if byteAt code s.ip = 8 then
        -- PUT_VAL xi, ai
        let xi := xiAddr code s
        let ai := jbyteOf (byteAt code (s.ip + 3))
        let d1 := upd s.data ai (s.data xi)
        execLoop code len dfuel ufuel fuel { s with data := d1, ip := s.ip + 4 }
      else if byteAt code s.ip = 9 then
        -- GET_VAR xi, ai
        let xi := xiAddr code s
        let ai := jbyteOf (byteAt code (s.ip + 3))
        let d1 := upd s.data xi (s.data ai)
        execLoop code len dfuel ufuel fuel { s with data := d1, ip := s.ip + 4 }
      else if byteAt code s.ip = 10 then
        -- GET_VAL xi, ai
        let xi := xiAddr code s
        let ai := jbyteOf (byteAt code (s.ip + 3))
        match l3unify dfuel ufuel s xi ai with
        | none => none
        | some r =>
          let s1 := { r.2 with ip := r.2.ip + 4 }
          if r.1 then execLoop code len dfuel ufuel fuel s1 else some (false, s1)
      else if byteAt code s.ip = 11 then
        -- CALL p/n
        let p_n := int32 (readWord code (s.ip + 1))
        if p_n = -1 then some (false, s)
        else execLoop code len dfuel ufuel fuel { s with cp := s.ip + 5, ip := p_n }
      else if byteAt code s.ip = 12 then
        -- PROCEED
        execLoop code len dfuel ufuel fuel { s with ip := s.cp }
      else if byteAt code s.ip = 13 then
        -- ALLOCATE n
        execLoop code len dfuel ufuel fuel (allocStep (jbyteOf (byteAt code (s.ip + 1))) s)
      else if byteAt code s.ip = 14 then
        -- DEALLOCATE
        execLoop code len dfuel ufuel fuel (deallocStep s)
      else some (false, s)
    else some (true, s)

/-- `execute(codeBuf, offset)`: starts at the requested address with the
continuation pointer set to the end of the code and the PDL cleared, then runs
the decode loop. -/
def execute (code : List Nat) (offset : Int) (dfuel ufuel ifuel : Nat) (s : St) :
    Option (Bool × St) :=
  execLoop code ((code.length : Nat) : Int) dfuel ufuel ifuel
    (l3uClear { s with ip := offset, cp := ((code.length : Nat) : Int) })

/-- `nativeReset`: a zeroed data area with `hp = sp = REG_SIZE`,
`ep = esp = REG_SIZE + HEAP_SIZE`, `up = TOP`, write mode off, `ip = cp = 0`
and cleared last-deref pseudo-registers. -/
def resetState : St :=
  { data := fun _ => 0
    hp := REG_SIZE
    sp := REG_SIZE
    up := TOP
    ep := REG_SIZE + HEAP_SIZE
    esp := REG_SIZE + HEAP_SIZE
    ip := 0
    cp := 0
    writeMode := false
    derefTag := 0
    derefVal := 0 }

/-- Control-flow skeleton of the L2 JIT `codeAdded` compile loop
(`l2jitmachine.cpp`): walks the instruction stream advancing `ip` by each
instruction's size, with the `stopCompilation` flag; the `default` case
(unknown opcode) raises the flag without advancing `ip`, and a `CALL` with
target `-1` raises it after advancing.  The LLVM code emission performed in
each case does not affect this control flow and is not modelled.  Returns the
final `ip` and the flag. -/
def codeAddedLoop (code : List Nat) (endIp : Int) : Nat → Int → Bool → Int × Bool
  | 0, ip, stop => (ip, stop)
  | fuel + 1, ip, stop =>
    if ip < endIp ∧ stop = false then
      if byteAt code ip = 1 then codeAddedLoop code endIp fuel (ip + 7) stop
      else if byteAt code ip = 2 then codeAddedLoop code endIp fuel (ip + 3) stop
      else if byteAt code ip = 3 then codeAddedLoop code endIp fuel (ip + 3) stop
      else if byteAt code ip = 4 then codeAddedLoop code endIp fuel (ip + 7) stop
      else if byteAt code ip = 5 then codeAddedLoop code endIp fuel (ip + 3) stop
      else if byteAt code ip = 6 then codeAddedLoop code endIp fuel (ip + 3) stop
      else if byteAt code ip = 7 then codeAddedLoop code endIp fuel (ip + 4) stop
      else if byteAt code ip = 8 then codeAddedLoop code endIp fuel (ip + 4) stop
      else if byteAt code ip = 9 then codeAddedLoop code endIp fuel (ip + 4) stop
      else if byteAt code ip = 10 then codeAddedLoop code endIp fuel (ip + 4) stop
      else if byteAt code ip = 11 then
        if int32 (readWord code (ip + 1)) = -1 then codeAddedLoop code endIp fuel (ip + 5) true
        else codeAddedLoop code endIp fuel (ip + 5) stop
      else if byteAt code ip = 12 then codeAddedLoop code endIp fuel (ip + 1) stop
      else if byteAt code ip = 13 then codeAddedLoop code endIp fuel (ip + 2) stop
      else if byteAt code ip = 14 then codeAddedLoop code endIp fuel (ip + 1) stop
      else codeAddedLoop code endIp fuel ip true
    else (ip, stop)

/-- Specification-side `unify(a1, a2)` (spec §4.1), parameterized by the
arity reading. -/
def unifySpec (nOf : Nat → Int) (dfuel ufuel : Nat) (s : St) (a1 a2 : Int) : Option (Bool × St) :=
  unifySpecLoop nOf dfuel ufuel (l3uPush (l3uPush s a1) a2)

/-- The arity of a functor word read as the unsigned low byte, which is what
the spec's data model (§3: low 8 bits carry arity) prescribes. -/
def arityUnsigned (w : Nat) : Int := ((w % 256 : Nat) : Int)

/-- The arity of a functor word read the way the C code reads it:
`(jbyte)(f_n1 & 0xFF)`, a signed byte. -/
def aritySigned (w : Nat) : Int := jbyteOf (w % 256)

theorem l3unifyLoop_eq_spec (dfuel : Nat) :
    ∀ (fuel : Nat) (s : St),
      l3unifyLoop dfuel fuel s = unifySpecLoop aritySigned dfuel fuel s := by
  intro fuel
  induction fuel with
  | zero => intro s; rfl
  | succ f ih =>
    intro s
    rw [l3unifyLoop, unifySpecLoop]
    split
    · rfl
    · dsimp only
      generalize l3derefS dfuel (l3uPop s).2 (l3uPop s).1 = o1
      cases o1 with
      | none => rfl
      | some r1 =>
        dsimp only
        generalize l3derefS dfuel (l3uPop r1.2).2 (l3uPop r1.2).1 = o2
        cases o2 with
        | none => rfl
        | some r2 =>
          simp only [aritySigned]
          split_ifs <;> first | exact ih _ | rfl

theorem int32_w32 (x : Int) (h1 : -(2 ^ 31) ≤ x) (h2 : x < 2 ^ 31) : int32 (w32 x) = x := by
  unfold int32 w32
  have e32 : (2 : Int) ^ 32 = 4294967296 := by norm_num
  have e31 : (2 : Int) ^ 31 = 2147483648 := by norm_num
  rw [e32] at *
  rw [e31] at h2
  split_ifs with h <;> omega

theorem codeAddedLoop_stopped (code : List Nat) (endIp : Int) :
    ∀ (fuel : Nat) (ip : Int), codeAddedLoop code endIp fuel ip true = (ip, true) := by
  intro fuel ip
  cases fuel with
  | zero => rfl
  | succ f =>
    rw [codeAddedLoop]
    simp

/-! ### Concrete states and programs used by the claim witnesses -/

/-- A heap for exercising the unification engine on which the signed and the
unsigned reading of the arity byte disagree: registers 0 and 1 hold `STR`
cells whose functor words (at 10 and 20) are equal with low byte 128, and the
cells at offset 128 from the two payloads are `STR` cells with different
functor words (4 at 40 versus 3 at 30). -/
def c1data : Int → Nat := fun a =>
  if a = 0 then mkCell 2 10 else if a = 1 then mkCell 2 20
  else if a = 10 then 128 else if a = 20 then 128
  else if a = 138 then mkCell 2 40 else if a = 148 then mkCell 2 30
  else if a = 30 then 3 else if a = 40 then 4 else 0

/-- Machine state carrying `c1data`. -/
def c1st : St := { resetState with data := c1data }

/-- A state with two distinct stacked environment frames: the frame at
`ep = 10010` has saved previous `ep` 10050 and continuation slot 100, while
the parent frame's continuation slot (at 10051) holds 200. -/
def s3data : Int → Nat := fun a =>
  if a = 10010 then 10050 else if a = 10011 then 100 else if a = 10051 then 200 else 0

/-- Machine state carrying `s3data` (its `ep` is `10010` from reset). -/
def s3 : St := { resetState with data := s3data }

/-- The byte code of spec §8 scenario 2: the single instruction
`GET_STRUC X0, foo/0` in register mode, with functor/arity word `0x00000500`
(functor 5, arity 0). -/
def c4prog : List Nat := [4, 1, 0, 0, 5, 0, 0]

/-- Boolean transcription of claim C4's expected outcome: `execute` succeeds,
register `X0` holds a `STR` cell whose payload points at the `foo/0`
functor/arity word, and write mode is on. -/
def c4claimCheck : Bool :=
  match execute c4prog 0 9 9 9 resetState with
  | some (ok, s) =>
    ok && (cellTag (s.data 0) == 2) && (s.data ((cellVal (s.data 0) : Nat) : Int) == readWord c4prog 3)
      && s.writeMode
  | none => false

/-- A program that drives the machine into a cyclic `REF` chain:
`PUT_STRUC X0, f/0; SET_VAR X1; GET_VAL X1, A0; GET_VAR X0, A1`.
The `GET_VAL` unification binds the fresh heap variable at 12 to the
dereference endpoint 0 — a register address, because `X0` holds a `STR` cell
directly — and the final `GET_VAR` then overwrites that register with `X1`'s
`REF` cell, closing the cycle `0 → 12 → 0`. -/
def c9prog : List Nat := [1, 1, 0, 0, 0, 0, 0, 2, 1, 1, 10, 1, 1, 0, 9, 1, 0, 1]

/-- Cells 0 and 12 of the state reached by `c9prog`, the only cells the
dereference of address 0 ever visits there. -/
def c9cycleData : Int → Nat := fun a =>
  if a = 0 then mkCell 1 12 else if a = 12 then mkCell 1 0 else 0

/-- A small state whose `REF` chain from 0 ends after one step at the `STR`
cell at address 5. -/
def c2st : St :=
  { resetState with data := fun a => if a = 0 then mkCell 1 5 else if a = 5 then mkCell 2 7 else 0 }

/-! ### Claims -/

/-- Claim C1, counterexample.  The claim reads the pushed arity `n1` from the
functor/arity word, whose arity per the data model is the unsigned low byte
(`arityUnsigned`); the code instead casts that byte to a signed `jbyte`.  On
`c1st` (arity byte 128, argument pair at offset 128 mismatching) `l3unify`
pushes no argument pairs and succeeds, while the unify loop of spec §4.1 with
the unsigned arity pushes the 128 pairs, reaches the mismatch and fails. -/
theorem C1_counterexample :
    (l3unify 3 9 c1st 0 1).map Prod.fst = some true ∧
      (unifySpec arityUnsigned 3 9 c1st 0 1).map Prod.fst = some false := by
  constructor
  · decide
  · decide

/-- Claim C1, amended: `unify(a1, a2)` pushes `a1` and `a2` onto the PDL and
loops as spec §4.1 steps 1-4 state — pop two addresses, dereference to `d1`
and `d2`, skip if equal, bind if either endpoint is `REF`, fail on differing
32-bit functor/arity words, push the argument pairs `(v1+i, v2+i)` otherwise,
and return true exactly when the PDL drains without failure — provided the
arity `n1` is the low byte of the functor word read as a signed 8-bit value
(`aritySigned`), so that an arity byte of 128 or more pushes no pairs. -/
theorem C1_unify_spec (dfuel ufuel : Nat) (s : St) (a1 a2 : Int) :
    l3unify dfuel ufuel s a1 a2 = unifySpec aritySigned dfuel ufuel s a1 a2 := by
  unfold l3unify unifySpec
  exact l3unifyLoop_eq_spec dfuel ufuel _

/-- Claim C2: whenever the `REF` chain from `a` reaches its terminal cell `e`
(not `REF`, or a self-reference) within the fuel, `dereference(a)` returns
`e` and publishes that cell's tag and 24-bit value into the last-deref
pseudo-registers read by `get_deref_tag` / `get_deref_val`. -/
theorem C2_deref (dfuel : Nat) (s : St) (a e : Int) (h : chainEnd s.data dfuel a = some e) :
    (l3derefS dfuel s a).map (fun p => (p.1, getDerefTag p.2, getDerefVal p.2)) =
      some (e, jbyteOf (cellTag (s.data e)), ((cellVal (s.data e) : Nat) : Int)) := by
  unfold l3derefS getDerefTag getDerefVal
  rw [l3derefFuel_eq_chainEnd s.data dfuel a e h]
  rfl

/-- Witness for C2 at the concrete chain `0 → 5` of `c2st`. -/
theorem C2_deref_witness :
    (l3derefS 3 c2st 0).map (fun p => (p.1, getDerefTag p.2, getDerefVal p.2)) =
      some (5, jbyteOf (cellTag (c2st.data 5)), ((cellVal (c2st.data 5) : Nat) : Int)) :=
  C2_deref 3 c2st 0 5 (by decide)

/-- Claim C3, counterexample.  On `s3` (where `data[ep] = 10050 ≠ ep` and
`data[ep+1] = 100` but `data[10051] = 200`), executing the single
`DEALLOCATE` instruction resumes at `ip = 200` — the continuation slot of the
restored parent frame — with `cp = 1` (the code length set on entry, left
untouched by `DEALLOCATE`), whereas the claim's `cp ← data[ep+1];
ep ← data[ep]; ip ← cp` predicts `cp = ip = 100`. -/
theorem C3_counterexample :
    (execute [14] 0 3 3 3 s3).map (fun p => (p.1, p.2.ip, p.2.cp)) = some (true, 200, 1) ∧
      int32 (s3.data (s3.ep + 1)) = 100 ∧ (200 : Int) ≠ 100 ∧ (1 : Int) ≠ 100 := by
  refine ⟨by decide, by decide, by decide, by decide⟩

/-- Claim C3, amended: executing `DEALLOCATE` sets `esp` to the current `ep`,
restores `ep` from `data[ep]` (the saved previous `ep`), and then sets `ip`
to `data[new ep + 1]` — the continuation slot of the restored parent frame,
not of the frame being popped — while `cp` is left unchanged. -/
theorem C3_deallocate (code : List Nat) (len : Int) (dfuel ufuel fuel : Nat) (s : St)
    (hip : s.ip < len) (hop : byteAt code s.ip = 14) :
    execLoop code len dfuel ufuel (fuel + 1) s =
      execLoop code len dfuel ufuel fuel
        { s with esp := s.ep, ep := int32 (s.data s.ep),
                 ip := int32 (s.data (int32 (s.data s.ep) + 1)) } := by
  rw [execLoop, if_pos hip]
  rw [hop]
  norm_num [deallocStep]

/-- Witness for C3 (amended) on `s3` with code `[DEALLOCATE]`. -/
theorem C3_deallocate_witness :
    execLoop [14] 1 3 3 1 s3 =
      execLoop [14] 1 3 3 0
        { s3 with esp := s3.ep, ep := int32 (s3.data s3.ep),
                  ip := int32 (s3.data (int32 (s3.data s3.ep) + 1)) } :=
  C3_deallocate [14] 1 3 3 0 s3 (by decide) (by decide)

/-- Claim C4, counterexample.  After reset, executing `GET_STRUC X0, foo/0`
does not deliver the claimed outcome: `c4claimCheck` — success, `X0` a `STR`
cell whose payload holds the `foo/0` functor word, and write mode on — is
false, because the zeroed register dereferences to tag 0, which matches
neither the `REF` nor the `STR` case of `GET_STRUC`. -/
theorem C4_counterexample : c4claimCheck = false := by decide

/-- Claim C4, amended: after reset, executing `GET_STRUC X0, foo/0` succeeds
(`execute` returns true) but leaves `X0` unchanged as the zero cell (tag 0,
not a `STR` cell bound to `foo/0`) and leaves `write_mode = false`. -/
theorem C4_get_struc_reset :
    (execute c4prog 0 9 9 9 resetState).map (fun p => (p.1, p.2.data 0, p.2.writeMode)) =
      some (true, 0, false) := by decide

/-- Claim C5: for every machine state and frame size `N`, `ALLOCATE N`
followed immediately by `DEALLOCATE` restores `ep`, `cp` and `esp` to their
pre-`ALLOCATE` values (the `ep` written into the frame header round-trips
through a 32-bit cell, whence the `jint` range hypotheses). -/
theorem C5_alloc_dealloc (s : St) (n : Int) (h1 : -(2 ^ 31) ≤ s.ep) (h2 : s.ep < 2 ^ 31) :
    (deallocStep (allocStep n s)).ep = s.ep ∧ (deallocStep (allocStep n s)).cp = s.cp ∧
      (deallocStep (allocStep n s)).esp = s.esp := by
  have hr : upd (upd (upd s.data s.esp (w32 s.ep)) (s.esp + 1) (w32 s.cp)) (s.esp + 2) (w32 n)
      s.esp = w32 s.ep := by
    have hne2 : s.esp ≠ s.esp + 2 := by omega
    have hne1 : s.esp ≠ s.esp + 1 := by omega
    unfold upd
    rw [if_neg hne2, if_neg hne1, if_pos rfl]
  unfold deallocStep allocStep
  refine ⟨?_, rfl, rfl⟩
  simp only [hr]
  exact int32_w32 s.ep h1 h2

/-- Witness for C5 at the reset state with `N = 0`. -/
theorem C5_alloc_dealloc_witness :
    (deallocStep (allocStep 0 resetState)).ep = resetState.ep ∧
      (deallocStep (allocStep 0 resetState)).cp = resetState.cp ∧
      (deallocStep (allocStep 0 resetState)).esp = resetState.esp :=
  C5_alloc_dealloc resetState 0 (by decide) (by decide)

/-- Claim C6: after reset every cell of the data area in `[0, TOP)` is zero,
and the pointers are `hp = sp = REG_SIZE`, `ep = esp = REG_SIZE + HEAP_SIZE`,
`up = TOP`, with write mode off and the last-deref tag and value zero. -/
theorem C6_reset (a : Int) (h1 : 0 ≤ a) (h2 : a < TOP) :
    getHeap resetState a = 0 ∧ resetState.hp = REG_SIZE ∧ resetState.sp = REG_SIZE ∧
      resetState.ep = REG_SIZE + HEAP_SIZE ∧ resetState.esp = REG_SIZE + HEAP_SIZE ∧
      resetState.up = TOP ∧ resetState.writeMode = false ∧
      getDerefTag resetState = 0 ∧ getDerefVal resetState = 0 :=
  ⟨rfl, rfl, rfl, rfl, rfl, rfl, rfl, rfl, rfl⟩

/-- Witness for C6 at address 37. -/
theorem C6_reset_witness :
    getHeap resetState 37 = 0 ∧ resetState.hp = REG_SIZE ∧ resetState.sp = REG_SIZE ∧
      resetState.ep = REG_SIZE + HEAP_SIZE ∧ resetState.esp = REG_SIZE + HEAP_SIZE ∧
      resetState.up = TOP ∧ resetState.writeMode = false ∧
      getDerefTag resetState = 0 ∧ getDerefVal resetState = 0 :=
  C6_reset 37 (by decide) (by decide)

/-- Claim C7: for every slot index `k`, `deref_stack(k)` is exactly
`deref(k + ep + 3)` — same returned address, same published last-deref tag
and value (the results are equal as address-state pairs). -/
theorem C7_deref_stack (dfuel : Nat) (s : St) (k : Int) :
    derefStackS dfuel s k = l3derefS dfuel s (k + s.ep + 3) := rfl

/-- Claim C8: an opcode byte outside `0x01..0x0E` makes the interpreter's
decode loop fail — `execute` returns false with the state as it stood — and
makes the JIT `codeAdded` compile loop stop compilation of the fragment at
that instruction. -/
theorem C8_unknown_opcode (code : List Nat) (len endIp : Int) (dfuel ufuel fuel gfuel : Nat)
    (s : St) (ip2 : Int) :
    (s.ip < len → byteAt code s.ip = 0 ∨ 14 < byteAt code s.ip →
      execLoop code len dfuel ufuel (fuel + 1) s = some (false, s)) ∧
    (ip2 < endIp → byteAt code ip2 = 0 ∨ 14 < byteAt code ip2 →
      codeAddedLoop code endIp (gfuel + 1) ip2 false = (ip2, true)) := by
  constructor
  · intro hip hop
    have h1 : ¬ byteAt code s.ip = 1 := by omega
    have h2 : ¬ byteAt code s.ip = 2 := by omega
    have h3 : ¬ byteAt code s.ip = 3 := by omega
    have h4 : ¬ byteAt code s.ip = 4 := by omega
    have h5 : ¬ byteAt code s.ip = 5 := by omega
    have h6 : ¬ byteAt code s.ip = 6 := by omega
    have h7 : ¬ byteAt code s.ip = 7 := by omega
    have h8 : ¬ byteAt code s.ip = 8 := by omega
    have h9 : ¬ byteAt code s.ip = 9 := by omega
    have h10 : ¬ byteAt code s.ip = 10 := by omega
    have h11 : ¬ byteAt code s.ip = 11 := by omega
    have h12 : ¬ byteAt code s.ip = 12 := by omega
    have h13 : ¬ byteAt code s.ip = 13 := by omega
    have h14 : ¬ byteAt code s.ip = 14 := by omega
    rw [execLoop, if_pos hip]
    simp only [if_neg h1, if_neg h2, if_neg h3, if_neg h4, if_neg h5, if_neg h6, if_neg h7,
      if_neg h8, if_neg h9, if_neg h10, if_neg h11, if_neg h12, if_neg h13, if_neg h14]
  · intro hip hop
    have g1 : ¬ byteAt code ip2 = 1 := by omega
    have g2 : ¬ byteAt code ip2 = 2 := by omega
    have g3 : ¬ byteAt code ip2 = 3 := by omega
    have g4 : ¬ byteAt code ip2 = 4 := by omega
    have g5 : ¬ byteAt code ip2 = 5 := by omega
    have g6 : ¬ byteAt code ip2 = 6 := by omega
    have g7 : ¬ byteAt code ip2 = 7 := by omega
    have g8 : ¬ byteAt code ip2 = 8 := by omega
    have g9 : ¬ byteAt code ip2 = 9 := by omega
    have g10 : ¬ byteAt code ip2 = 10 := by omega
    have g11 : ¬ byteAt code ip2 = 11 := by omega
    have g12 : ¬ byteAt code ip2 = 12 := by omega
    have g13 : ¬ byteAt code ip2 = 13 := by omega
    have g14 : ¬ byteAt code ip2 = 14 := by omega
    rw [codeAddedLoop, if_pos (And.intro hip rfl)]
    simp only [if_neg g1, if_neg g2, if_neg g3, if_neg g4, if_neg g5, if_neg g6, if_neg g7,
      if_neg g8, if_neg g9, if_neg g10, if_neg g11, if_neg g12, if_neg g13, if_neg g14]
    exact codeAddedLoop_stopped code endIp gfuel ip2

/-- Witness for C8 on the one-byte program `0xFF`. -/
theorem C8_unknown_opcode_witness :
    execLoop [255] 1 1 1 1 resetState = some (false, resetState) ∧
      codeAddedLoop [255] 1 1 0 false = (0, true) :=
  ⟨(C8_unknown_opcode [255] 1 1 1 1 0 0 resetState 0).1 (by decide) (by decide),
   (C8_unknown_opcode [255] 1 1 1 1 0 0 resetState 0).2 (by decide) (by decide)⟩

/-- Claim C9, counterexample.  Executing `c9prog` from reset succeeds and
leaves `data[0] = REF 12` and `data[12] = REF 0`: address 0 starts a `REF`
chain that re-enters its starting cell although it is not a self-loop
(`cellVal (mkCell 1 12) = 12 ≠ 0`), so this reachable configuration violates
the claim, and the dereference loop does not terminate on it (on
`c9cycleData`, the cells of the reached state that the dereference of address
0 visits, both the code's walk and the specification's chain walk are still
running after 64 steps). -/
theorem C9_counterexample :
    (execute c9prog 0 5 9 9 resetState).map (fun p => (p.1, p.2.data 0, p.2.data 12)) =
        some (true, mkCell 1 12, mkCell 1 0) ∧
      cellTag (mkCell 1 12) = 1 ∧ ((cellVal (mkCell 1 12) : Nat) : Int) = 12 ∧
      (12 : Int) ≠ 0 ∧ l3derefFuel c9cycleData 64 0 = none ∧ chainEnd c9cycleData 64 0 = none := by
  refine ⟨by decide, by decide, by decide, by decide, by decide, by decide⟩

/-- Claim C9, amended: the dereference loop terminates precisely on heap
configurations whose `REF` chain from the queried address reaches a terminal
(non-`REF` or self-referencing) cell in finitely many steps — reachability
from reset does not guarantee that, but whenever the chain walk of the
specification terminates, so does `dereference`. -/
theorem C9_deref_terminates (data : Int → Nat) (fuel : Nat) (a e : Int)
    (h : chainEnd data fuel a = some e) : (l3derefFuel data fuel a).isSome := by
  rw [l3derefFuel_eq_chainEnd data fuel a e h]
  rfl

/-- Witness for C9 (amended) on the chain `0 → 5` of `c2st`. -/
theorem C9_deref_terminates_witness : (l3derefFuel c2st.data 3 0).isSome :=
  C9_deref_terminates c2st.data 3 0 5 (by decide)

/-- Claim C10: `execute` clears the PDL pointer to `TOP` before decoding any
instruction, so its entire outcome — result and final state — is independent
of the PDL pointer left by any earlier call: running from a state with any
pending `up` equals running from the same state unmodified. -/
theorem C10_pdl_cleared (code : List Nat) (offset : Int) (dfuel ufuel ifuel : Nat)
    (s : St) (x : Int) :
    execute code offset dfuel ufuel ifuel { s with up := x } =
      execute code offset dfuel ufuel ifuel s := by
  cases s
  rfl

end L3
